import Mathlib

/-!
Verification of the issue storage and consistency engine
(`amplifier_module_issue_manager`).

The manager (`manager.py`) is embedded directly.  The data model, the
in-memory index, and the scheduling algorithms live in repository files
(`models.py`, `index.py`, `algorithms.py`, `storage.py`) whose sources are
not available; those definitions are modelled from the specification, as
marked in their doc comments.

Nondeterministic inputs of the Python code (`uuid.uuid4()` and
`datetime.now()`) are passed in as explicit parameters.  The file lock and
the storage round trips are made observable through an `OpAction` trace
attached to every manager operation, mirroring the order in which
`manager.py` acquires the lock, loads the fresh index, persists, releases,
and appends audit events.
-/

/-- Modelled from the spec: a JSON-like scalar value, covering the field
values that appear in event `changes` payloads (strings, integers, null for
absent optional fields). -/
inductive JVal where
  | vnull : JVal
  | vstr : String → JVal
  | vint : Int → JVal
deriving DecidableEq

/-- Modelled from the spec (§3): an Issue record with the fields listed in
the data model.  Timestamps are abstracted to naturals, `metadata` is an
open string-keyed map represented as an association list. -/
structure Issue where
  id : String
  title : String
  description : String
  status : String
  priority : Int
  issue_type : String
  assignee : Option String
  created_at : Nat
  updated_at : Nat
  closed_at : Option Nat
  parent_id : Option String
  discovered_from : Option String
  blocking_notes : Option String
  metadata : List (String × String)
deriving DecidableEq

/-- Modelled from the spec (§3): a Dependency edge `from_id → to_id`
meaning `from_id` is blocked by `to_id`. -/
structure Dependency where
  from_id : String
  to_id : String
  dep_type : String
  created_at : Nat
deriving DecidableEq

/-- A value stored in an event `changes` map.  The Python code stores
heterogeneous dictionary values; each shape used by `manager.py` becomes a
constructor: `oldNew` for field deltas, `metaMap` for the metadata payload
of an update, `issueVal` for the full-issue snapshot of a `created` event,
and `plain` for scalar payloads such as a close reason. -/
inductive ChangeVal where
  | oldNew : JVal → JVal → ChangeVal
  | metaMap : List (String × String) → ChangeVal
  | issueVal : Issue → ChangeVal
  | plain : JVal → ChangeVal
deriving DecidableEq

/-- Recognizer for the `{old, new}` delta shape of a change entry. -/
def ChangeVal.isOldNew : ChangeVal → Bool
  | ChangeVal.oldNew _ _ => true
  | _ => false

/-- Modelled from the spec (§3): an immutable audit record. -/
structure IssueEvent where
  id : String
  issue_id : String
  event_type : String
  actor : String
  changes : List (String × ChangeVal)
  timestamp : Nat
  session_id : Option String
deriving DecidableEq

/-- Modelled from the spec (§4.1, §6): the persisted state — the issue
snapshot store, the dependency snapshot store and the append-only event
log. -/
structure Store where
  issues : List Issue
  deps : List Dependency
  events : List IssueEvent
deriving DecidableEq

/-- The configuration of an `IssueManager` instance: default actor for
events and the optional session id recorded on every emitted event. -/
structure Manager where
  actor : String
  session_id : Option String
deriving DecidableEq

/-- Observable steps of a manager operation, used to witness where the
lock is taken, where the fresh index is loaded, and where persistence and
event emission happen. -/
inductive OpAction where
  | acquireLock : OpAction
  | loadIndex : OpAction
  | saveIssues : OpAction
  | saveDependencies : OpAction
  | releaseLock : OpAction
  | appendEvent : OpAction
deriving DecidableEq

/-- First-match lookup in an association list (Python `dict` access). -/
def lookupKey {κ β : Type} [DecidableEq κ] (k : κ) : List (κ × β) → Option β
  | [] => none
  | (k₁, v) :: rest => if k₁ = k then some v else lookupKey k rest

/-- Python `dict` assignment: replace the value at an existing key in
place, otherwise append the binding at the end. -/
def upsert {κ β : Type} [DecidableEq κ] (k : κ) (v : β) : List (κ × β) → List (κ × β)
  | [] => [(k, v)]
  | (k₁, v₁) :: rest => if k₁ = k then (k, v) :: rest else (k₁, v₁) :: upsert k v rest

/-- Modelled from the spec (§4.2): the transient in-memory index — an
issue-by-id map and the dependency edge set keyed by `(from_id, to_id)`,
both insertion-ordered as Python dicts are. -/
structure IssueIndex where
  issues : List (String × Issue)
  dependencies : List ((String × String) × Dependency)
deriving DecidableEq

/-- Modelled from the spec (§4.2): register an issue under its id. -/
def IssueIndex.add_issue (idx : IssueIndex) (issue : Issue) : IssueIndex :=
  { idx with issues := upsert issue.id issue idx.issues }

/-- Modelled from the spec (§4.2): register a dependency edge under its
`(from_id, to_id)` key. -/
def IssueIndex.add_dependency (idx : IssueIndex) (dep : Dependency) : IssueIndex :=
  { idx with dependencies := upsert (dep.from_id, dep.to_id) dep idx.dependencies }

/-- Modelled from the spec (§4.2): drop the edge keyed `(from_id, to_id)`. -/
def IssueIndex.remove_dependency (idx : IssueIndex) (from_id to_id : String) : IssueIndex :=
  { idx with dependencies := idx.dependencies.filter (fun p => decide (p.1 ≠ (from_id, to_id))) }

/-- Modelled from the spec (§4.2): `get_issue(id) -> Issue or absent`. -/
def IssueIndex.get_issue (idx : IssueIndex) (issue_id : String) : Option Issue :=
  lookupKey issue_id idx.issues

/-- Modelled from the spec (§4.2): ids of the issues blocking `issue_id`
(the `to_id` of every edge whose `from_id` is `issue_id`). -/
def IssueIndex.get_blockers (idx : IssueIndex) (issue_id : String) : List String :=
  (idx.dependencies.filter (fun p => decide (p.1.1 = issue_id))).map (fun p => p.1.2)

/-- Modelled from the spec (§4.2): ids of the issues that depend on
`issue_id`. -/
def IssueIndex.get_dependents (idx : IssueIndex) (issue_id : String) : List String :=
  (idx.dependencies.filter (fun p => decide (p.1.2 = issue_id))).map (fun p => p.1.1)

/-- Modelled from the spec (§4.2): all dependency records. -/
def IssueIndex.get_all_dependencies (idx : IssueIndex) : List Dependency :=
  idx.dependencies.map Prod.snd

/-- `IssueManager._load_fresh`: rebuild the index from storage by adding
every persisted issue and dependency in order. -/
def load_fresh (st : Store) : IssueIndex :=
  let idx : IssueIndex := { issues := [], dependencies := [] }
  let idx := st.issues.foldl (fun i issue => i.add_issue issue) idx
  st.deps.foldl (fun i dep => i.add_dependency dep) idx

/-- Successor ids of `x` in an edge list. -/
def succs (edges : List (String × String)) (x : String) : List String :=
  (edges.filter (fun e => decide (e.1 = x))).map Prod.snd

/-- Fuel-bounded breadth-first closure of a set of visited ids under the
edge relation. -/
def reachSet (edges : List (String × String)) : Nat → List String → List String
  | 0, visited => visited
  | fuel + 1, visited =>
    let next := (visited.flatMap (succs edges)).filter (fun y => !visited.contains y)
    match next with
    | [] => visited
    | _ => reachSet edges fuel (visited ++ next)

/-- Whether `dst` is reachable from `src` through the edge list.  The fuel
`edges.length + 1` suffices because each expanding round adds at least one
new vertex, and only edge targets can ever be added. -/
def can_reach (edges : List (String × String)) (src dst : String) : Bool :=
  (reachSet edges (edges.length + 1) [src]).contains dst

/-- Modelled from the spec (§4.3): `detect_cycle(index, from_id, to_id)`
decides whether adding edge `from_id → to_id` would create a cycle —
positive exactly when `to_id` can already reach `from_id` through the
existing edges. -/
def detect_cycle (idx : IssueIndex) (from_id to_id : String) : Bool :=
  can_reach (idx.dependencies.map Prod.fst) to_id from_id

/-- Whether an issue status counts as resolved for blocker purposes. -/
def resolved_status (s : String) : Bool :=
  s == "closed" || s == "completed"

/-- Resolve one blocker id: the blocking issue when it exists and its
status is not closed/completed, nothing otherwise. -/
def blocker_filter (idx : IssueIndex) (bid : String) : Option Issue :=
  match idx.get_issue bid with
  | some b => if resolved_status b.status then none else some b
  | none => none

/-- Modelled from the spec (§4.3): the unresolved blockers of an issue —
every blocking issue whose status is not closed/completed, resolved to its
full Issue object; blocker ids that do not resolve are skipped. -/
def unresolved_blockers (idx : IssueIndex) (issue_id : String) : List Issue :=
  (idx.get_blockers issue_id).filterMap (blocker_filter idx)

/-- Total preorder used by the ready queue: priority ascending, ties
broken by creation time ascending. -/
def readyLE (i j : Issue) : Prop :=
  i.priority < j.priority ∨ (i.priority = j.priority ∧ i.created_at ≤ j.created_at)

instance : DecidableRel readyLE := fun i j => by
  unfold readyLE; infer_instance

instance : IsTotal Issue readyLE where
  total i j := by
    unfold readyLE
    rcases lt_trichotomy i.priority j.priority with h | h | h
    · exact Or.inl (Or.inl h)
    · rcases Nat.le_total i.created_at j.created_at with h₂ | h₂
      · exact Or.inl (Or.inr ⟨h, h₂⟩)
      · exact Or.inr (Or.inr ⟨h.symm, h₂⟩)
    · exact Or.inr (Or.inl h)

instance : IsTrans Issue readyLE where
  trans i j k hij hjk := by
    unfold readyLE at *
    rcases hij with h₁ | ⟨h₁, h₁c⟩ <;> rcases hjk with h₂ | ⟨h₂, h₂c⟩
    · exact Or.inl (h₁.trans h₂)
    · exact Or.inl (h₂ ▸ h₁)
    · exact Or.inl (h₁ ▸ h₂)
    · exact Or.inr ⟨h₁.trans h₂, h₁c.trans h₂c⟩

/-- Modelled from the spec (§4.3): `get_ready_issues(index, limit)` — the
issues whose status is open and which have no unresolved blocker, sorted
by priority ascending then creation time ascending; a given limit
truncates the ordered result. -/
def ready_issues_alg (idx : IssueIndex) (limit : Option Nat) : List Issue :=
  let ready := (idx.issues.map Prod.snd).filter
    (fun i => (i.status == "open") && (unresolved_blockers idx i.id).isEmpty)
  let sorted := List.insertionSort readyLE ready
  match limit with
  | some n => sorted.take n
  | none => sorted

/-- Modelled from the spec (§4.3): `get_blocked_issues(index)` — every
issue with at least one unresolved blocker, regardless of its own status,
paired with the full list of its unresolved blockers. -/
def blocked_issues_alg (idx : IssueIndex) : List (Issue × List Issue) :=
  (idx.issues.map Prod.snd).filterMap (fun i =>
    let bs := unresolved_blockers idx i.id
    if bs.isEmpty then none else some (i, bs))

/-- `IssueManager._emit_event`: append one audit event to the event log,
stamped with the manager actor and session id. -/
def emit_event (m : Manager) (event_id : String) (ts : Nat) (issue_id event_type : String)
    (changes : List (String × ChangeVal)) (st : Store) : Store :=
  let e : IssueEvent :=
    { id := event_id, issue_id := issue_id, event_type := event_type,
      actor := m.actor, changes := changes, timestamp := ts,
      session_id := m.session_id }
  { st with events := st.events ++ [e] }

/-- Trace of `_with_lock` when the mutation succeeds: acquire, load fresh,
save issues, release. -/
def withLockTraceOk : List OpAction :=
  [OpAction.acquireLock, OpAction.loadIndex, OpAction.saveIssues, OpAction.releaseLock]

/-- Trace of a locked operation whose mutation raises: the lock is
acquired and the fresh index loaded, then the `with` block releases the
lock while the error propagates — nothing is persisted. -/
def withLockTraceErr : List OpAction :=
  [OpAction.acquireLock, OpAction.loadIndex, OpAction.releaseLock]

/-- Trace of a locked read-only operation (no persistence). -/
def lockedReadTrace : List OpAction :=
  [OpAction.acquireLock, OpAction.loadIndex, OpAction.releaseLock]

/-- The valid issue types accepted by `create_issue`. -/
def issue_types : List String := ["bug", "feature", "task", "epic", "chore"]

/-- The valid statuses accepted by `update_issue` after alias
normalization. -/
def valid_statuses : List String :=
  ["open", "in_progress", "blocked", "closed", "completed", "pending_user_input"]

/-- The valid dependency types accepted by `add_dependency`. -/
def dep_types : List String := ["blocks", "related", "parent-child", "discovered-from"]

/-- Legacy status alias normalization applied on write:
`done → completed`, `waiting → pending_user_input`. -/
def status_aliases (s : String) : String :=
  if s = "done" then "completed"
  else if s = "waiting" then "pending_user_input"
  else s

/-- `IssueManager.create_issue`, with `uuid.uuid4()` and `datetime.now()`
passed in as `new_id`/`now` and the emitted event's fresh id and timestamp
as `event_id`/`event_time`.  Priority and issue type are validated before
the lock is taken; on success the issue is added under the lock, the issue
snapshot is saved, and a `created` event is appended after release. -/
def create_issue (m : Manager) (st : Store) (title description : String) (priority : Int)
    (issue_type : String) (assignee parent_id discovered_from : Option String)
    (metadata : Option (List (String × String))) (new_id : String) (now : Nat)
    (event_id : String) (event_time : Nat) :
    Except String Issue × Store × List OpAction :=
  if priority < 0 ∨ priority > 4 then
    (Except.error "Priority must be 0-4", st, [])
  else if issue_type ∉ issue_types then
    (Except.error "Invalid issue_type", st, [])
  else
    let issue : Issue :=
      { id := new_id, title := title, description := description, status := "open",
        priority := priority, issue_type := issue_type, assignee := assignee,
        created_at := now, updated_at := now, closed_at := none,
        parent_id := parent_id, discovered_from := discovered_from,
        blocking_notes := none, metadata := metadata.getD [] }
    let idx := (load_fresh st).add_issue issue
    let st₁ := { st with issues := idx.issues.map Prod.snd }
    let st₂ := emit_event m event_id event_time issue.id "created"
      [("issue", ChangeVal.issueVal issue)] st₁
    (Except.ok issue, st₂, withLockTraceOk ++ [OpAction.appendEvent])

/-- A single `[(key, f x)]` entry when the optional argument is supplied,
nothing otherwise — one `if field is not None` block of `update_issue`. -/
def optEntry {α : Type} (key : String) (o : Option α) (f : α → ChangeVal) :
    List (String × ChangeVal) :=
  match o with
  | some x => [(key, f x)]
  | none => []

/-- The `title` block of `do_update`: record the `{old, new}` pair and set
the field. -/
def step_title (s : Issue × List (String × ChangeVal)) (title : Option String) :
    Issue × List (String × ChangeVal) :=
  ({ s.1 with title := title.getD s.1.title },
   s.2 ++ optEntry "title" title (fun t => ChangeVal.oldNew (JVal.vstr s.1.title) (JVal.vstr t)))

/-- The `description` block of `do_update`. -/
def step_description (s : Issue × List (String × ChangeVal)) (description : Option String) :
    Issue × List (String × ChangeVal) :=
  ({ s.1 with description := description.getD s.1.description },
   s.2 ++ optEntry "description" description
     (fun d => ChangeVal.oldNew (JVal.vstr s.1.description) (JVal.vstr d)))

/-- The `status` block of `do_update`: normalize aliases, validate against
the status enum (raising a validation error on failure), record the
`{old, new}` pair with the normalized value, and set the field. -/
def step_status (s : Issue × List (String × ChangeVal)) (status : Option String) :
    Except String (Issue × List (String × ChangeVal)) :=
  match status with
  | none => Except.ok s
  | some raw =>
    let ns := status_aliases raw
    if ns ∈ valid_statuses then
      Except.ok ({ s.1 with status := ns },
        s.2 ++ [("status", ChangeVal.oldNew (JVal.vstr s.1.status) (JVal.vstr ns))])
    else
      Except.error "Invalid status. Must be one of: open, in_progress, blocked, closed, completed, pending_user_input"

/-- The `priority` block of `do_update`: re-validate the 0–4 range
(raising a validation error on failure), record the `{old, new}` pair, and
set the field. -/
def step_priority (s : Issue × List (String × ChangeVal)) (priority : Option Int) :
    Except String (Issue × List (String × ChangeVal)) :=
  match priority with
  | none => Except.ok s
  | some p =>
    if p < 0 ∨ p > 4 then Except.error "Priority must be 0-4"
    else
      Except.ok ({ s.1 with priority := p },
        s.2 ++ [("priority", ChangeVal.oldNew (JVal.vint s.1.priority) (JVal.vint p))])

/-- JSON encoding of an optional string field value (`None` becomes null). -/
def optStrJ : Option String → JVal
  | some s => JVal.vstr s
  | none => JVal.vnull

/-- The `assignee` block of `do_update`. -/
def step_assignee (s : Issue × List (String × ChangeVal)) (assignee : Option String) :
    Issue × List (String × ChangeVal) :=
  ({ s.1 with assignee := if assignee.isSome then assignee else s.1.assignee },
   s.2 ++ optEntry "assignee" assignee
     (fun a => ChangeVal.oldNew (optStrJ s.1.assignee) (JVal.vstr a)))

/-- The `blocking_notes` block of `do_update`. -/
def step_blocking_notes (s : Issue × List (String × ChangeVal)) (notes : Option String) :
    Issue × List (String × ChangeVal) :=
  ({ s.1 with blocking_notes := if notes.isSome then notes else s.1.blocking_notes },
   s.2 ++ optEntry "blocking_notes" notes
     (fun n => ChangeVal.oldNew (optStrJ s.1.blocking_notes) (JVal.vstr n)))

/-- Python `dict.update`: merge the supplied metadata into the existing
map, overwriting existing keys in place and appending new ones. -/
def merge_metadata (old new : List (String × String)) : List (String × String) :=
  new.foldl (fun acc kv => upsert kv.1 kv.2 acc) old

/-- The `metadata` block of `do_update`: merge into the existing metadata
and record the supplied map itself — not an `{old, new}` pair — as the
change entry. -/
def step_metadata (s : Issue × List (String × ChangeVal))
    (metadata : Option (List (String × String))) :
    Issue × List (String × ChangeVal) :=
  match metadata with
  | none => s
  | some mm =>
    ({ s.1 with metadata := merge_metadata s.1.metadata mm },
     s.2 ++ [("metadata", ChangeVal.metaMap mm)])

/-- The `do_update` closure of `IssueManager.update_issue`: apply each
supplied field in source order, collecting the `changes` map, validating
status and priority mid-sequence, and refreshing `updated_at`
unconditionally at the end. -/
def do_update (issue₀ : Issue) (title description status : Option String)
    (priority : Option Int) (assignee blocking_notes : Option String)
    (metadata : Option (List (String × String))) (now : Nat) :
    Except String (Issue × List (String × ChangeVal)) := do
  let s₁ := step_title (issue₀, []) title
  let s₂ := step_description s₁ description
  let s₃ ← step_status s₂ status
  let s₄ ← step_priority s₃ priority
  let s₅ := step_assignee s₄ assignee
  let s₆ := step_blocking_notes s₅ blocking_notes
  let s₇ := step_metadata s₆ metadata
  return ({ s₇.1 with updated_at := now }, s₇.2)

/-- `IssueManager.update_issue`: under the lock, load the fresh index,
fail with a not-found error if the id is unknown, apply `do_update`
(validation errors propagate before any save), persist the issue snapshot
on success, and emit an `updated` event carrying the changes map after
release. -/
def update_issue (m : Manager) (st : Store) (issue_id : String)
    (title description status : Option String) (priority : Option Int)
    (assignee blocking_notes : Option String) (metadata : Option (List (String × String)))
    (now : Nat) (event_id : String) (event_time : Nat) :
    Except String Issue × Store × List OpAction :=
  let idx := load_fresh st
  match idx.get_issue issue_id with
  | none => (Except.error ("Issue not found: " ++ issue_id), st, withLockTraceErr)
  | some issue₀ =>
    match do_update issue₀ title description status priority assignee blocking_notes
        metadata now with
    | Except.error e => (Except.error e, st, withLockTraceErr)
    | Except.ok (issue₁, changes) =>
      let idx₁ := idx.add_issue issue₁
      let st₁ := { st with issues := idx₁.issues.map Prod.snd }
      let st₂ := emit_event m event_id event_time issue_id "updated" changes st₁
      (Except.ok issue₁, st₂, withLockTraceOk ++ [OpAction.appendEvent])

/-- `IssueManager.close_issue`: under the lock, fail with a not-found
error if the id is unknown, otherwise set status to closed, stamp
`closed_at` and `updated_at`, persist, and emit a `closed` event with the
reason after release. -/
def close_issue (m : Manager) (st : Store) (issue_id : String) (reason : String)
    (now : Nat) (event_id : String) (event_time : Nat) :
    Except String Issue × Store × List OpAction :=
  let idx := load_fresh st
  match idx.get_issue issue_id with
  | none => (Except.error ("Issue not found: " ++ issue_id), st, withLockTraceErr)
  | some issue₀ =>
    let issue₁ := { issue₀ with status := "closed", closed_at := some now, updated_at := now }
    let idx₁ := idx.add_issue issue₁
    let st₁ := { st with issues := idx₁.issues.map Prod.snd }
    let st₂ := emit_event m event_id event_time issue_id "closed"
      [("reason", ChangeVal.plain (JVal.vstr reason))] st₁
    (Except.ok issue₁, st₂, withLockTraceOk ++ [OpAction.appendEvent])

/-- `IssueManager.add_dependency`: validate the dependency type before the
lock; under the lock fail with a not-found error if either endpoint is
unknown and with a conflict error if cycle detection rejects the edge;
otherwise add the edge, persist the dependency snapshot, and emit a
`dependency_added` event attributed to `from_id` after release. -/
def add_dependency (m : Manager) (st : Store) (from_id to_id dep_type : String)
    (now : Nat) (event_id : String) (event_time : Nat) :
    Except String Dependency × Store × List OpAction :=
  if dep_type ∉ dep_types then
    (Except.error "Invalid dep_type", st, [])
  else
    let idx := load_fresh st
    if (idx.get_issue from_id).isNone then
      (Except.error ("Issue not found: " ++ from_id), st, withLockTraceErr)
    else if (idx.get_issue to_id).isNone then
      (Except.error ("Issue not found: " ++ to_id), st, withLockTraceErr)
    else if detect_cycle idx from_id to_id then
      (Except.error "Dependency would create a cycle", st, withLockTraceErr)
    else
      let dep : Dependency :=
        { from_id := from_id, to_id := to_id, dep_type := dep_type, created_at := now }
      let idx₁ := idx.add_dependency dep
      let st₁ := { st with deps := idx₁.get_all_dependencies }
      let st₂ := emit_event m event_id event_time from_id "dependency_added"
        [("from_id", ChangeVal.plain (JVal.vstr from_id)),
         ("to_id", ChangeVal.plain (JVal.vstr to_id)),
         ("dep_type", ChangeVal.plain (JVal.vstr dep_type))] st₁
      (Except.ok dep, st₂,
        [OpAction.acquireLock, OpAction.loadIndex, OpAction.saveDependencies,
         OpAction.releaseLock, OpAction.appendEvent])

/-- `IssueManager.remove_dependency`: under the lock fail with a not-found
error if the exact `(from_id, to_id)` edge does not exist, otherwise
remove it, persist the dependency snapshot, and emit a
`dependency_removed` event after release. -/
def remove_dependency (m : Manager) (st : Store) (from_id to_id : String)
    (event_id : String) (event_time : Nat) :
    Except String Unit × Store × List OpAction :=
  let idx := load_fresh st
  if (lookupKey (from_id, to_id) idx.dependencies).isNone then
    (Except.error ("Dependency not found: " ++ from_id ++ " -> " ++ to_id), st, withLockTraceErr)
  else
    let idx₁ := idx.remove_dependency from_id to_id
    let st₁ := { st with deps := idx₁.get_all_dependencies }
    let st₂ := emit_event m event_id event_time from_id "dependency_removed"
      [("from_id", ChangeVal.plain (JVal.vstr from_id)),
       ("to_id", ChangeVal.plain (JVal.vstr to_id))] st₁
    (Except.ok (), st₂,
      [OpAction.acquireLock, OpAction.loadIndex, OpAction.saveDependencies,
       OpAction.releaseLock, OpAction.appendEvent])

/-- `IssueManager.get_ready_issues`: a locked read delegating to the ready
algorithm over a freshly loaded index. -/
def get_ready_issues (m : Manager) (st : Store) (limit : Option Nat) :
    Except String (List Issue) × Store × List OpAction :=
  (Except.ok (ready_issues_alg (load_fresh st) limit), st, lockedReadTrace)

/-- `IssueManager.get_blocked_issues`: a locked read delegating to the
blocked algorithm over a freshly loaded index. -/
def get_blocked_issues (m : Manager) (st : Store) :
    Except String (List (Issue × List Issue)) × Store × List OpAction :=
  (Except.ok (blocked_issues_alg (load_fresh st)), st, lockedReadTrace)

/-- `IssueManager.get_issue_events`: all events whose `issue_id` matches,
in log order. -/
def get_issue_events (st : Store) (issue_id : String) : List IssueEvent :=
  st.events.filter (fun e => e.issue_id == issue_id)

/-- Python truthiness of an optional string: `None` and the empty string
are falsy. -/
def truthy : Option String → Bool
  | none => false
  | some s => !(s == "")

/-- One iteration of the session-collection loop of `get_issue_sessions`:
events with a falsy `session_id` are skipped; otherwise the event type is
appended to that session's list, creating the entry on first sight. -/
def session_step (acc : List (String × List String)) (e : IssueEvent) :
    List (String × List String) :=
  if truthy e.session_id then
    let sid := e.session_id.getD ""
    match lookupKey sid acc with
    | some l => upsert sid (l ++ [e.event_type]) acc
    | none => acc ++ [(sid, [e.event_type])]
  else acc

/-- The session-collection loop of `get_issue_sessions` over the issue's
events in log order. -/
def collect_sessions (events : List IssueEvent) : List (String × List String) :=
  events.foldl session_step []

/-- The aggregate returned by `get_issue_sessions`. -/
structure SessionInfo where
  issue_id : String
  linked_sessions : List String
  session_count : Nat
  events_by_session : List (String × List String)
  hint : String
deriving DecidableEq

/-- `IssueManager.get_issue_sessions`: fail with a not-found error if the
id is unknown; otherwise aggregate the issue's historical events into the
sorted deduplicated session list, the session count, and the per-session
event-type lists. -/
def get_issue_sessions (m : Manager) (st : Store) (issue_id : String) :
    Except String SessionInfo × Store × List OpAction :=
  match (load_fresh st).get_issue issue_id with
  | none => (Except.error ("Issue not found: " ++ issue_id), st, lockedReadTrace)
  | some _ =>
    let events := get_issue_events st issue_id
    let sessions := collect_sessions events
    (Except.ok
      { issue_id := issue_id,
        linked_sessions := List.insertionSort (fun a b : String => a ≤ b) (sessions.map Prod.fst),
        session_count := sessions.length,
        events_by_session := sessions,
        hint := "Use \x27amplifier session resume <session_id>\x27 to revive context for follow-up questions" },
      st, lockedReadTrace)

/-- `IssueManager.emit_session_ended`: if the id is unknown, silently do
nothing; otherwise append a `session_ended` event after the locked
existence check. -/
def emit_session_ended (m : Manager) (st : Store) (issue_id : String)
    (event_id : String) (event_time : Nat) :
    Except String Unit × Store × List OpAction :=
  match (load_fresh st).get_issue issue_id with
  | none => (Except.ok (), st, lockedReadTrace)
  | some _ =>
    (Except.ok (),
     emit_event m event_id event_time issue_id "session_ended"
       [("reason", ChangeVal.plain (JVal.vstr "session terminated"))] st,
     lockedReadTrace ++ [OpAction.appendEvent])

/-- The `(from_id, to_id)` key of a dependency record. -/
def depKey (d : Dependency) : String × String := (d.from_id, d.to_id)

/-- Well-formedness of a persisted store: issue ids are unique, dependency
edges are unique per `(from_id, to_id)` pair, and both endpoints of every
edge exist — the invariants the engine maintains (§3: ids are globally
unique, the edge set has no duplicate pair, endpoints exist at creation
time and issues are never deleted). -/
def Store.WF (st : Store) : Prop :=
  (st.issues.map Issue.id).Nodup ∧ (st.deps.map depKey).Nodup ∧
  ∀ d ∈ st.deps, (∃ i ∈ st.issues, i.id = d.from_id) ∧ ∃ i ∈ st.issues, i.id = d.to_id

instance (st : Store) : Decidable st.WF := by
  unfold Store.WF; infer_instance

/-- A blocker id counts as resolved in a store when every issue carrying
that id has status closed or completed. -/
def resolved_in (st : Store) (bid : String) : Prop :=
  ∀ b ∈ st.issues, b.id = bid → (b.status = "closed" ∨ b.status = "completed")

instance (st : Store) (bid : String) : Decidable (resolved_in st bid) := by
  unfold resolved_in; infer_instance

/-- The event types an external session produced for a given event list,
in log order. -/
def session_types (events : List IssueEvent) (sid : String) : List String :=
  (events.filter (fun e => decide (e.session_id = some sid))).map (fun e => e.event_type)

/-- Manager fixture used by the concrete witnesses. -/
def mgrW : Manager := { actor := "test", session_id := some "s1" }

/-- Manager fixture with no session id. -/
def mgrNone : Manager := { actor := "test", session_id := none }

/-- Issue fixture `a`. -/
def issW_a : Issue :=
  { id := "a", title := "A", description := "", status := "open", priority := 1,
    issue_type := "task", assignee := none, created_at := 1, updated_at := 1,
    closed_at := none, parent_id := none, discovered_from := none,
    blocking_notes := none, metadata := [] }

/-- Issue fixture `b`. -/
def issW_b : Issue := { issW_a with id := "b", title := "B", created_at := 2 }

/-- Issue fixture `c`, closed. -/
def issW_c : Issue :=
  { issW_a with
    id := "c", title := "C", created_at := 3, status := "closed",
    closed_at := some 3 }

/-- Store fixture: issues `a`, `b`, no dependencies, no events. -/
def stW : Store := { issues := [issW_a, issW_b], deps := [], events := [] }

/-- Store fixture: `stW` after a successful `add_dependency a → b`. -/
def stW_ab : Store := (add_dependency mgrW stW "a" "b" "blocks" 3 "e1" 3).2.1

/-- Store fixture with a dependency `a → b` (open blocker) and `a → c`
(closed blocker), plus events from two sessions and one session-less
event, for the query witnesses. -/
def stW_rich : Store :=
  { issues := [issW_a, issW_b, issW_c],
    deps := [{ from_id := "a", to_id := "b", dep_type := "blocks", created_at := 3 },
             { from_id := "a", to_id := "c", dep_type := "blocks", created_at := 4 }],
    events :=
      [{ id := "e1", issue_id := "a", event_type := "created", actor := "test",
         changes := [], timestamp := 1, session_id := some "s2" },
       { id := "e2", issue_id := "a", event_type := "updated", actor := "test",
         changes := [], timestamp := 2, session_id := some "s1" },
       { id := "e3", issue_id := "a", event_type := "closed", actor := "test",
         changes := [], timestamp := 3, session_id := some "s2" },
       { id := "e4", issue_id := "a", event_type := "session_ended", actor := "test",
         changes := [], timestamp := 4, session_id := none }] }

/-- Store fixture produced by a session-less manager creating one issue on
an empty store. -/
def stW_nosession : Store :=
  (create_issue mgrNone { issues := [], deps := [], events := [] } "T" "" 2 "task"
    none none none none "a" 1 "e1" 1).2.1

/-- The issue value produced by a successful `do_update`: each supplied
field replaces the old one (status after alias normalization, metadata by
merge), and `updated_at` is refreshed. -/
def updated_issue (iss : Issue) (title description status : Option String)
    (priority : Option Int) (assignee notes : Option String)
    (md : Option (List (String × String))) (now : Nat) : Issue :=
  { iss with
    title := title.getD iss.title,
    description := description.getD iss.description,
    status := (status.map status_aliases).getD iss.status,
    priority := priority.getD iss.priority,
    assignee := if assignee.isSome then assignee else iss.assignee,
    blocking_notes := if notes.isSome then notes else iss.blocking_notes,
    metadata := match md with
      | none => iss.metadata
      | some mm => merge_metadata iss.metadata mm,
    updated_at := now }

theorem lookupKey_eq_none_iff {κ β : Type} [DecidableEq κ] (k : κ) (l : List (κ × β)) :
    lookupKey k l = none ↔ k ∉ l.map Prod.fst := by
  induction l with
  | nil => simp [lookupKey]
  | cons p rest ih =>
    obtain ⟨k₁, v⟩ := p
    by_cases h : k₁ = k
    · subst h; simp [lookupKey]
    · rw [show lookupKey k ((k₁, v) :: rest) = lookupKey k rest from by simp [lookupKey, h]]
      simp only [List.map_cons, List.mem_cons]
      constructor
      · intro hn
        rw [ih] at hn
        rintro (h₂ | h₂)
        · exact h h₂.symm
        · exact hn h₂
      · intro hn
        rw [ih]
        exact fun h₂ => hn (Or.inr h₂)

theorem lookupKey_append {κ β : Type} [DecidableEq κ] (k : κ) (l₁ l₂ : List (κ × β)) :
    lookupKey k (l₁ ++ l₂) =
      match lookupKey k l₁ with
      | some v => some v
      | none => lookupKey k l₂ := by
  induction l₁ with
  | nil => simp [lookupKey]
  | cons p rest ih =>
    obtain ⟨k₁, v⟩ := p
    by_cases h : k₁ = k <;> simp [lookupKey, h, ih]

theorem lookupKey_optEntry {α : Type} (k key : String) (o : Option α) (f : α → ChangeVal) :
    lookupKey k (optEntry key o f) = if key = k then o.map f else none := by
  cases o <;> by_cases h : key = k <;> simp [optEntry, lookupKey, h]

theorem upsert_lookup_self {κ β : Type} [DecidableEq κ] (k : κ) (v : β) (l : List (κ × β)) :
    lookupKey k (upsert k v l) = some v := by
  induction l with
  | nil => simp [upsert, lookupKey]
  | cons p rest ih =>
    obtain ⟨k₁, v₁⟩ := p
    by_cases h : k₁ = k <;> simp [upsert, lookupKey, h, ih]

theorem upsert_lookup_other {κ β : Type} [DecidableEq κ] {k₁ k : κ} (v : β) (l : List (κ × β))
    (h : k₁ ≠ k) : lookupKey k₁ (upsert k v l) = lookupKey k₁ l := by
  have hk : ¬(k = k₁) := fun hh => h hh.symm
  induction l with
  | nil => simp [upsert, lookupKey, hk]
  | cons p rest ih =>
    obtain ⟨k₂, v₂⟩ := p
    by_cases h₂ : k₂ = k
    · subst h₂
      simp [upsert, lookupKey, hk]
    · by_cases h₃ : k₂ = k₁
      · subst h₃
        simp [upsert, lookupKey, h₂]
      · simp [upsert, lookupKey, h₂, h₃, ih]

theorem upsert_map_fst_of_mem {κ β : Type} [DecidableEq κ] (k : κ) (v : β) (l : List (κ × β))
    (h : k ∈ l.map Prod.fst) : (upsert k v l).map Prod.fst = l.map Prod.fst := by
  induction l with
  | nil => simp at h
  | cons p rest ih =>
    obtain ⟨k₁, v₁⟩ := p
    simp only [List.map_cons, List.mem_cons] at h
    by_cases h₁ : k₁ = k
    · simp [upsert, h₁]
    · have : k ∈ rest.map Prod.fst := by
        rcases h with h₂ | h₂
        · exact absurd h₂.symm h₁
        · exact h₂
      simp [upsert, h₁, ih this]

theorem upsert_of_not_mem {κ β : Type} [DecidableEq κ] (k : κ) (v : β) (l : List (κ × β))
    (h : k ∉ l.map Prod.fst) : upsert k v l = l ++ [(k, v)] := by
  induction l with
  | nil => simp [upsert]
  | cons p rest ih =>
    obtain ⟨k₁, v₁⟩ := p
    have h₁ : k₁ ≠ k := by
      intro hh; exact h (by simp [hh])
    have h₂ : k ∉ rest.map Prod.fst := by
      intro hh; exact h (by simp [hh])
    simp [upsert, h₁, ih h₂]

theorem foldl_add_dependency_issues (deps : List Dependency) (idx : IssueIndex) :
    (deps.foldl (fun i dep => i.add_dependency dep) idx).issues = idx.issues := by
  induction deps generalizing idx with
  | nil => rfl
  | cons d rest ih =>
    simp only [List.foldl_cons]
    rw [ih]
    rfl

theorem foldl_add_issue_dependencies (issues : List Issue) (idx : IssueIndex) :
    (issues.foldl (fun i issue => i.add_issue issue) idx).dependencies = idx.dependencies := by
  induction issues generalizing idx with
  | nil => rfl
  | cons i rest ih =>
    simp only [List.foldl_cons]
    rw [ih]
    rfl

theorem foldl_add_issue_issues (issues : List Issue) (idx : IssueIndex) :
    (issues.foldl (fun i issue => i.add_issue issue) idx).issues
      = issues.foldl (fun mp issue => upsert issue.id issue mp) idx.issues := by
  induction issues generalizing idx with
  | nil => rfl
  | cons i rest ih =>
    simp only [List.foldl_cons]
    rw [ih]
    rfl

theorem foldl_add_dependency_deps (deps : List Dependency) (idx : IssueIndex) :
    (deps.foldl (fun i dep => i.add_dependency dep) idx).dependencies
      = deps.foldl (fun mp dep => upsert (depKey dep) dep mp) idx.dependencies := by
  induction deps generalizing idx with
  | nil => rfl
  | cons d rest ih =>
    simp only [List.foldl_cons]
    rw [ih]
    rfl

theorem foldl_upsert_eq {α κ : Type} [DecidableEq κ] (f : α → κ) :
    ∀ (l : List α) (acc : List (κ × α)), (l.map f).Nodup →
      (∀ x ∈ l, f x ∉ acc.map Prod.fst) →
      l.foldl (fun mp x => upsert (f x) x mp) acc = acc ++ l.map (fun x => (f x, x)) := by
  intro l
  induction l with
  | nil => intro acc _ _; simp
  | cons x rest ih =>
    intro acc hnd hacc
    have hx : f x ∉ acc.map Prod.fst := hacc x (by simp)
    have hstep : upsert (f x) x acc = acc ++ [(f x, x)] := upsert_of_not_mem _ _ _ hx
    have hnd₂ : f x ∉ rest.map f ∧ (rest.map f).Nodup := by
      rw [List.map_cons, List.nodup_cons] at hnd; exact hnd
    have hnd' : (rest.map f).Nodup := hnd₂.2
    have hxrest : f x ∉ rest.map f := hnd₂.1
    have hacc' : ∀ y ∈ rest, f y ∉ (acc ++ [(f x, x)]).map Prod.fst := by
      intro y hy
      simp only [List.map_append, List.mem_append]
      rintro (h | h)
      · exact hacc y (by simp [hy]) h
      · simp at h
        exact hxrest (h ▸ List.mem_map_of_mem f hy)
    calc (x :: rest).foldl (fun mp z => upsert (f z) z mp) acc
        = rest.foldl (fun mp z => upsert (f z) z mp) (acc ++ [(f x, x)]) := by
          simp [List.foldl_cons, hstep]
      _ = (acc ++ [(f x, x)]) ++ rest.map (fun z => (f z, z)) := ih _ hnd' hacc'
      _ = acc ++ (x :: rest).map (fun z => (f z, z)) := by simp

theorem load_fresh_issues (st : Store) (h : (st.issues.map Issue.id).Nodup) :
    (load_fresh st).issues = st.issues.map (fun i => (i.id, i)) := by
  unfold load_fresh
  rw [foldl_add_dependency_issues, foldl_add_issue_issues]
  simpa using foldl_upsert_eq Issue.id st.issues [] h (by simp)

theorem load_fresh_deps (st : Store) (h : (st.deps.map depKey).Nodup) :
    (load_fresh st).dependencies = st.deps.map (fun d => (depKey d, d)) := by
  unfold load_fresh
  rw [foldl_add_dependency_deps, foldl_add_issue_dependencies]
  have : ∀ mp dep, upsert (dep.from_id, dep.to_id) dep mp = upsert (depKey dep) dep mp := by
    intro mp dep; rfl
  simpa using foldl_upsert_eq depKey st.deps [] h (by simp)

theorem lookupKey_pairs {κ α : Type} [DecidableEq κ] (f : α → κ) (l : List α) (k : κ) (b : α)
    (h : (l.map f).Nodup) :
    lookupKey k (l.map fun x => (f x, x)) = some b ↔ b ∈ l ∧ f b = k := by
  induction l with
  | nil => simp [lookupKey]
  | cons x rest ih =>
    have hnd : f x ∉ rest.map f ∧ (rest.map f).Nodup := by
      rw [List.map_cons, List.nodup_cons] at h; exact h
    by_cases hx : f x = k
    · simp only [List.map_cons, lookupKey, hx, if_pos rfl]
      constructor
      · rintro h₂
        injection h₂ with h₂; exact ⟨by simp [h₂], h₂ ▸ hx⟩
      · rintro ⟨hb, hbk⟩
        rcases List.mem_cons.mp hb with h₂ | h₂
        · simp [h₂]
        · exact absurd (hbk.trans hx.symm ▸ List.mem_map_of_mem f h₂) hnd.1
    · simp only [List.map_cons, lookupKey, if_neg hx]
      rw [ih hnd.2]
      constructor
      · rintro ⟨hb, hbk⟩; exact ⟨by simp [hb], hbk⟩
      · rintro ⟨hb, hbk⟩
        rcases List.mem_cons.mp hb with h₂ | h₂
        · exact absurd (h₂ ▸ hbk) hx
        · exact ⟨h₂, hbk⟩

theorem lookupKey_pairs_none {κ α : Type} [DecidableEq κ] (f : α → κ) (l : List α) (k : κ) :
    lookupKey k (l.map fun x => (f x, x)) = none ↔ ∀ b ∈ l, f b ≠ k := by
  rw [lookupKey_eq_none_iff]
  simp

/-- C1: for every store and attempted edge, if adding `from_id → to_id`
would create a cycle in the blocking graph (i.e. `to_id` already reaches
`from_id` through the existing edges, as in adding A→B and then attempting
B→A), `add_dependency` fails with the conflict error and the persisted
store — in particular the dependency set — is left exactly as it was, with
no partial edge added. -/
theorem add_dependency_cycle_conflict (m : Manager) (st : Store)
    (from_id to_id dep_type : String) (now : Nat) (eid : String) (ets : Nat)
    (hd : dep_type ∈ dep_types)
    (hf : ((load_fresh st).get_issue from_id).isNone = false)
    (ht : ((load_fresh st).get_issue to_id).isNone = false)
    (hc : detect_cycle (load_fresh st) from_id to_id = true) :
    add_dependency m st from_id to_id dep_type now eid ets
      = (Except.error "Dependency would create a cycle", st, withLockTraceErr) := by
  unfold add_dependency
  simp [hd, hf, ht, hc]

/-- Witness for C1: after a successful `add_dependency a → b` on the
two-issue store, the reverse edge `b → a` is rejected as a cycle and the
store is unchanged. -/
theorem add_dependency_cycle_conflict_witness :
    add_dependency mgrW stW_ab "b" "a" "blocks" 4 "e2" 4
      = (Except.error "Dependency would create a cycle", stW_ab, withLockTraceErr) :=
  add_dependency_cycle_conflict mgrW stW_ab "b" "a" "blocks" 4 "e2" 4
    (by decide) (by decide) (by decide) (by decide)

/-- C4: an unknown issue id makes update_issue and close_issue fail with
the not-found error, and a non-existent edge makes remove_dependency fail
with its not-found error; in each case the trace is acquire/load/release —
the failure comes after the fresh index is loaded and before any save
action — and the persisted store is unchanged. -/
theorem not_found_failures_leave_store_unchanged (m : Manager) (st : Store)
    (uid f t : String) (title description status : Option String)
    (priority : Option Int) (assignee notes : Option String)
    (md : Option (List (String × String))) (reason : String)
    (now : Nat) (eid : String) (ets : Nat)
    (hu : (load_fresh st).get_issue uid = none)
    (he : lookupKey (f, t) (load_fresh st).dependencies = none) :
    update_issue m st uid title description status priority assignee notes md now eid ets
      = (Except.error ("Issue not found: " ++ uid), st, withLockTraceErr) ∧
    close_issue m st uid reason now eid ets
      = (Except.error ("Issue not found: " ++ uid), st, withLockTraceErr) ∧
    remove_dependency m st f t eid ets
      = (Except.error ("Dependency not found: " ++ f ++ " -> " ++ t), st, withLockTraceErr) ∧
    OpAction.loadIndex ∈ withLockTraceErr ∧
    OpAction.saveIssues ∉ withLockTraceErr ∧
    OpAction.saveDependencies ∉ withLockTraceErr := by
  refine ⟨?_, ?_, ?_, by decide, by decide, by decide⟩
  · unfold update_issue
    simp [hu]
  · unfold close_issue
    simp [hu]
  · unfold remove_dependency
    simp [he]

/-- Witness for C4 at the concrete two-issue store with an unknown id and
a non-existent edge. -/
theorem not_found_failures_witness :
    update_issue mgrW stW "zz" none none none none none none none 9 "e9" 9
      = (Except.error ("Issue not found: " ++ "zz"), stW, withLockTraceErr) ∧
    close_issue mgrW stW "zz" "done with it" 9 "e9" 9
      = (Except.error ("Issue not found: " ++ "zz"), stW, withLockTraceErr) ∧
    remove_dependency mgrW stW "a" "b" "e9" 9
      = (Except.error ("Dependency not found: " ++ "a" ++ " -> " ++ "b"), stW, withLockTraceErr) ∧
    OpAction.loadIndex ∈ withLockTraceErr ∧
    OpAction.saveIssues ∉ withLockTraceErr ∧
    OpAction.saveDependencies ∉ withLockTraceErr :=
  not_found_failures_leave_store_unchanged mgrW stW "zz" "a" "b" none none none none
    none none none "done with it" 9 "e9" 9 (by decide) (by decide)

/-- C9: emit_session_ended on an id that does not exist returns normally,
appends no event (its trace has no append action), and leaves the store —
in particular the event log — unchanged. -/
theorem emit_session_ended_unknown_is_noop (m : Manager) (st : Store) (uid eid : String)
    (ets : Nat) (h : (load_fresh st).get_issue uid = none) :
    emit_session_ended m st uid eid ets = (Except.ok (), st, lockedReadTrace) ∧
    OpAction.appendEvent ∉ lockedReadTrace := by
  refine ⟨?_, by decide⟩
  unfold emit_session_ended
  simp [h]

/-- Witness for C9 at the concrete store and an unknown id. -/
theorem emit_session_ended_unknown_witness :
    emit_session_ended mgrW stW "zz" "e9" 9 = (Except.ok (), stW, lockedReadTrace) ∧
    OpAction.appendEvent ∉ lockedReadTrace :=
  emit_session_ended_unknown_is_noop mgrW stW "zz" "e9" 9 (by decide)

theorem not_in_range_iff (p : Int) : ¬(0 ≤ p ∧ p ≤ 4) ↔ (p < 0 ∨ p > 4) := by
  omega

/-- C5: create_issue (with a valid issue type) and update_issue (on an
existing issue, supplying only the priority) accept an integer priority
exactly when it lies in 0..4; an out-of-range value is rejected with the
priority validation error and the store is unchanged, so no issue is
created or modified. -/
theorem priority_accepted_iff_in_range (m : Manager) (st : Store) (p : Int)
    (uid : String) (title description : String) (itype : String)
    (assignee parent_id dfrom : Option String) (md : Option (List (String × String)))
    (nid : String) (now : Nat) (eid : String) (ets : Nat)
    (hit : itype ∈ issue_types)
    (hiss : ((load_fresh st).get_issue uid).isNone = false) :
    ((create_issue m st title description p itype assignee parent_id dfrom md nid now eid ets).1.isOk = true
        ↔ 0 ≤ p ∧ p ≤ 4) ∧
    (¬(0 ≤ p ∧ p ≤ 4) →
      create_issue m st title description p itype assignee parent_id dfrom md nid now eid ets
        = (Except.error "Priority must be 0-4", st, [])) ∧
    ((update_issue m st uid none none none (some p) none none none now eid ets).1.isOk = true
        ↔ 0 ≤ p ∧ p ≤ 4) ∧
    (¬(0 ≤ p ∧ p ≤ 4) →
      update_issue m st uid none none none (some p) none none none now eid ets
        = (Except.error "Priority must be 0-4", st, withLockTraceErr)) := by
  obtain ⟨iss, hiss'⟩ : ∃ iss, (load_fresh st).get_issue uid = some iss := by
    cases h : (load_fresh st).get_issue uid with
    | none => rw [h] at hiss; simp at hiss
    | some iss => exact ⟨iss, rfl⟩
  by_cases hr : 0 ≤ p ∧ p ≤ 4
  · have hr' : ¬(p < 0 ∨ p > 4) := by omega
    refine ⟨?_, fun hc => absurd hr hc, ?_, fun hc => absurd hr hc⟩
    · simp [create_issue, hr', hr, hit, Except.isOk, Except.toBool]
    · simp [update_issue, hiss', do_update, step_title, step_description, step_status,
        step_priority, step_assignee, step_blocking_notes, step_metadata, optEntry,
        Bind.bind, Except.bind, Pure.pure, Except.pure, Except.isOk, Except.toBool, hr', hr]
  · have hr' : p < 0 ∨ p > 4 := (not_in_range_iff p).mp hr
    refine ⟨?_, fun _ => ?_, ?_, fun _ => ?_⟩
    · simp [create_issue, hr', hr, Except.isOk, Except.toBool]
    · simp [create_issue, hr']
    · simp [update_issue, hiss', do_update, step_title, step_description, step_status,
        step_priority, optEntry, Bind.bind, Except.bind, Pure.pure, Except.pure, Except.isOk, Except.toBool, hr', hr]
    · simp [update_issue, hiss', do_update, step_title, step_description, step_status,
        step_priority, optEntry, Bind.bind, Except.bind, Pure.pure, Except.pure, hr']

/-- Witness for C5 at the concrete store with the in-range priority 3. -/
theorem priority_accepted_witness :
    ((create_issue mgrW stW "T" "" 3 "task" none none none none "n1" 9 "e9" 9).1.isOk = true
        ↔ 0 ≤ (3 : Int) ∧ (3 : Int) ≤ 4) ∧
    (¬(0 ≤ (3 : Int) ∧ (3 : Int) ≤ 4) →
      create_issue mgrW stW "T" "" 3 "task" none none none none "n1" 9 "e9" 9
        = (Except.error "Priority must be 0-4", stW, [])) ∧
    ((update_issue mgrW stW "a" none none none (some 3) none none none 9 "e9" 9).1.isOk = true
        ↔ 0 ≤ (3 : Int) ∧ (3 : Int) ≤ 4) ∧
    (¬(0 ≤ (3 : Int) ∧ (3 : Int) ≤ 4) →
      update_issue mgrW stW "a" none none none (some 3) none none none 9 "e9" 9
        = (Except.error "Priority must be 0-4", stW, withLockTraceErr)) :=
  priority_accepted_iff_in_range mgrW stW 3 "a" "T" "" "task" none none none none
    "n1" 9 "e9" 9 (by decide) (by decide)

/-- C6 counterexample: calling update_issue with an invalid status on an
existing issue raises the validation failure only after the file lock has
been acquired — the operation's trace contains the lock acquisition, so
the claim that every validation failure is raised before any lock is
taken is false for update_issue. -/
theorem update_validation_acquires_lock_cex :
    (update_issue mgrW stW "a" none none (some "bogus") none none none none 9 "e9" 9).1
      = Except.error "Invalid status. Must be one of: open, in_progress, blocked, closed, completed, pending_user_input" ∧
    OpAction.acquireLock ∈ (update_issue mgrW stW "a" none none (some "bogus") none none none none 9 "e9" 9).2.2 := by
  constructor
  · rfl
  · decide

/-- C6 (amended): validation failures in create_issue (priority range,
issue type) and add_dependency (dependency type) are raised before the
lock is taken (their traces are empty) with the store unchanged; the
status and priority validation of update_issue instead happens after the
lock is acquired, inside the locked mutation, but still before any
persistence, so the store is likewise unchanged. -/
theorem validation_failure_lock_boundary (m : Manager) (st : Store)
    (title description : String) (p pbad : Int) (itype dt : String)
    (assignee parent_id dfrom : Option String) (md : Option (List (String × String)))
    (nid : String) (now : Nat) (eid : String) (ets : Nat)
    (f t uid sbad : String)
    (hp : p < 0 ∨ p > 4) (hit : itype ∉ issue_types) (hdt : dt ∉ dep_types)
    (hs : status_aliases sbad ∉ valid_statuses)
    (hiss : ((load_fresh st).get_issue uid).isNone = false)
    (hpb : pbad < 0 ∨ pbad > 4) :
    create_issue m st title description p itype assignee parent_id dfrom md nid now eid ets
      = (Except.error "Priority must be 0-4", st, []) ∧
    create_issue m st title description 2 itype assignee parent_id dfrom md nid now eid ets
      = (Except.error "Invalid issue_type", st, []) ∧
    add_dependency m st f t dt now eid ets = (Except.error "Invalid dep_type", st, []) ∧
    update_issue m st uid none none (some sbad) none none none none now eid ets
      = (Except.error "Invalid status. Must be one of: open, in_progress, blocked, closed, completed, pending_user_input",
         st, withLockTraceErr) ∧
    update_issue m st uid none none none (some pbad) none none none now eid ets
      = (Except.error "Priority must be 0-4", st, withLockTraceErr) ∧
    OpAction.acquireLock ∉ ([] : List OpAction) ∧
    OpAction.acquireLock ∈ withLockTraceErr ∧
    OpAction.saveIssues ∉ withLockTraceErr := by
  obtain ⟨iss, hiss'⟩ : ∃ iss, (load_fresh st).get_issue uid = some iss := by
    cases h : (load_fresh st).get_issue uid with
    | none => rw [h] at hiss; simp at hiss
    | some iss => exact ⟨iss, rfl⟩
  refine ⟨?_, ?_, ?_, ?_, ?_, by decide, by decide, by decide⟩
  · simp [create_issue, hp]
  · simp [create_issue, hit]
  · simp [add_dependency, hdt]
  · simp [update_issue, hiss', do_update, step_title, step_description, step_status,
      optEntry, Bind.bind, Except.bind, hs]
  · simp [update_issue, hiss', do_update, step_title, step_description, step_status,
      step_priority, optEntry, Bind.bind, Except.bind, hpb]

/-- Witness for the amended C6 at concrete invalid inputs on the two-issue
store. -/
theorem validation_failure_lock_boundary_witness :
    create_issue mgrW stW "T" "" (-1) "widget" none none none none "n1" 9 "e9" 9
      = (Except.error "Priority must be 0-4", stW, []) ∧
    create_issue mgrW stW "T" "" 2 "widget" none none none none "n1" 9 "e9" 9
      = (Except.error "Invalid issue_type", stW, []) ∧
    add_dependency mgrW stW "a" "b" "zzz" 9 "e9" 9 = (Except.error "Invalid dep_type", stW, []) ∧
    update_issue mgrW stW "a" none none (some "bogus") none none none none 9 "e9" 9
      = (Except.error "Invalid status. Must be one of: open, in_progress, blocked, closed, completed, pending_user_input",
         stW, withLockTraceErr) ∧
    update_issue mgrW stW "a" none none none (some 9) none none none 9 "e9" 9
      = (Except.error "Priority must be 0-4", stW, withLockTraceErr) ∧
    OpAction.acquireLock ∉ ([] : List OpAction) ∧
    OpAction.acquireLock ∈ withLockTraceErr ∧
    OpAction.saveIssues ∉ withLockTraceErr :=
  validation_failure_lock_boundary mgrW stW "T" "" (-1) 9 "widget" "zzz" none none none
    none "n1" 9 "e9" 9 "a" "b" "a" "bogus" (by decide) (by decide) (by decide)
    (by decide) (by decide) (by decide)

theorem mem_optEntry {α : Type} {p : String × ChangeVal} {key : String} {o : Option α}
    {f : α → ChangeVal} (h : p ∈ optEntry key o f) : p.1 = key := by
  cases o with
  | none => simp [optEntry] at h
  | some x =>
    simp [optEntry] at h
    simp [h]

theorem do_update_ok_changes (iss : Issue) (title description status : Option String)
    (priority : Option Int) (assignee notes : Option String)
    (md : Option (List (String × String))) (now : Nat)
    (hs : ∀ s, status = some s → status_aliases s ∈ valid_statuses)
    (hp : ∀ q, priority = some q → 0 ≤ q ∧ q ≤ 4) :
    do_update iss title description status priority assignee notes md now
      = Except.ok (updated_issue iss title description status priority assignee notes md now,
          optEntry "title" title (fun v => ChangeVal.oldNew (JVal.vstr iss.title) (JVal.vstr v)) ++
          optEntry "description" description
            (fun v => ChangeVal.oldNew (JVal.vstr iss.description) (JVal.vstr v)) ++
          optEntry "status" status
            (fun v => ChangeVal.oldNew (JVal.vstr iss.status) (JVal.vstr (status_aliases v))) ++
          optEntry "priority" priority
            (fun v => ChangeVal.oldNew (JVal.vint iss.priority) (JVal.vint v)) ++
          optEntry "assignee" assignee
            (fun v => ChangeVal.oldNew (optStrJ iss.assignee) (JVal.vstr v)) ++
          optEntry "blocking_notes" notes
            (fun v => ChangeVal.oldNew (optStrJ iss.blocking_notes) (JVal.vstr v)) ++
          optEntry "metadata" md (fun v => ChangeVal.metaMap v)) := by
  cases status with
  | some s =>
    have hs' := hs s rfl
    cases priority with
    | some q =>
      have hq : ¬(q < 0 ∨ q > 4) := by have := hp q rfl; omega
      cases md <;>
        simp [do_update, step_title, step_description, step_status, step_priority,
          step_assignee, step_blocking_notes, step_metadata, updated_issue, optEntry,
          Bind.bind, Except.bind, Pure.pure, Except.pure, hs', hq]
    | none =>
      cases md <;>
        simp [do_update, step_title, step_description, step_status, step_priority,
          step_assignee, step_blocking_notes, step_metadata, updated_issue, optEntry,
          Bind.bind, Except.bind, Pure.pure, Except.pure, hs']
  | none =>
    cases priority with
    | some q =>
      have hq : ¬(q < 0 ∨ q > 4) := by have := hp q rfl; omega
      cases md <;>
        simp [do_update, step_title, step_description, step_status, step_priority,
          step_assignee, step_blocking_notes, step_metadata, updated_issue, optEntry,
          Bind.bind, Except.bind, Pure.pure, Except.pure, hq]
    | none =>
      cases md <;>
        simp [do_update, step_title, step_description, step_status, step_priority,
          step_assignee, step_blocking_notes, step_metadata, updated_issue, optEntry,
          Bind.bind, Except.bind, Pure.pure, Except.pure]

/-- C7 counterexample: for an update that supplies only metadata, the
emitted `updated` event's changes map carries the supplied metadata map
itself as the entry — not an `{old, new}` pair — so the claim that every
supplied field (including metadata) is recorded as an `{old, new}` pair is
false. -/
theorem update_metadata_change_not_oldnew_cex :
    ((update_issue mgrW stW "a" none none none none none none (some [("k", "v")]) 9 "e9" 9).2.1.events.map
        (fun e => lookupKey "metadata" e.changes))
      = [some (ChangeVal.metaMap [("k", "v")])] ∧
    ChangeVal.isOldNew (ChangeVal.metaMap [("k", "v")]) = false := by
  constructor
  · rfl
  · rfl

/-- C7 (amended): every successful update emits exactly one `updated`
event whose changes map records, for each supplied field among title,
description, status, priority, assignee and blocking_notes, an
`{old, new}` pair of the previous and new values (status recorded with the
normalized new value); a supplied metadata field is recorded as the
supplied metadata map itself rather than an `{old, new}` pair; and no
entry exists for a field that was not supplied. -/
theorem update_changes_map_spec (m : Manager) (st : Store) (uid : String) (iss : Issue)
    (title description status : Option String) (priority : Option Int)
    (assignee notes : Option String) (md : Option (List (String × String)))
    (now : Nat) (eid : String) (ets : Nat)
    (hiss : (load_fresh st).get_issue uid = some iss)
    (hs : ∀ s, status = some s → status_aliases s ∈ valid_statuses)
    (hp : ∀ q, priority = some q → 0 ≤ q ∧ q ≤ 4) :
    ∃ issue₁ ev,
      (update_issue m st uid title description status priority assignee notes md now eid ets).1
        = Except.ok issue₁ ∧
      (update_issue m st uid title description status priority assignee notes md now eid ets).2.1.events
        = st.events ++ [ev] ∧
      ev.event_type = "updated" ∧
      ev.issue_id = uid ∧
      lookupKey "title" ev.changes
        = title.map (fun v => ChangeVal.oldNew (JVal.vstr iss.title) (JVal.vstr v)) ∧
      lookupKey "description" ev.changes
        = description.map (fun v => ChangeVal.oldNew (JVal.vstr iss.description) (JVal.vstr v)) ∧
      lookupKey "status" ev.changes
        = status.map (fun v => ChangeVal.oldNew (JVal.vstr iss.status) (JVal.vstr (status_aliases v))) ∧
      lookupKey "priority" ev.changes
        = priority.map (fun v => ChangeVal.oldNew (JVal.vint iss.priority) (JVal.vint v)) ∧
      lookupKey "assignee" ev.changes
        = assignee.map (fun v => ChangeVal.oldNew (optStrJ iss.assignee) (JVal.vstr v)) ∧
      lookupKey "blocking_notes" ev.changes
        = notes.map (fun v => ChangeVal.oldNew (optStrJ iss.blocking_notes) (JVal.vstr v)) ∧
      lookupKey "metadata" ev.changes = md.map (fun v => ChangeVal.metaMap v) ∧
      (∀ k v, (k, v) ∈ ev.changes →
        k ∈ ["title", "description", "status", "priority", "assignee", "blocking_notes", "metadata"]) := by
  have hdo := do_update_ok_changes iss title description status priority assignee notes md now hs hp
  refine ⟨updated_issue iss title description status priority assignee notes md now,
    { id := eid, issue_id := uid, event_type := "updated", actor := m.actor,
      changes :=
        optEntry "title" title (fun v => ChangeVal.oldNew (JVal.vstr iss.title) (JVal.vstr v)) ++
        optEntry "description" description
          (fun v => ChangeVal.oldNew (JVal.vstr iss.description) (JVal.vstr v)) ++
        optEntry "status" status
          (fun v => ChangeVal.oldNew (JVal.vstr iss.status) (JVal.vstr (status_aliases v))) ++
        optEntry "priority" priority
          (fun v => ChangeVal.oldNew (JVal.vint iss.priority) (JVal.vint v)) ++
        optEntry "assignee" assignee
          (fun v => ChangeVal.oldNew (optStrJ iss.assignee) (JVal.vstr v)) ++
        optEntry "blocking_notes" notes
          (fun v => ChangeVal.oldNew (optStrJ iss.blocking_notes) (JVal.vstr v)) ++
        optEntry "metadata" md (fun v => ChangeVal.metaMap v),
      timestamp := ets, session_id := m.session_id }, ?_, ?_, rfl, rfl,
    ?_, ?_, ?_, ?_, ?_, ?_, ?_, ?_⟩
  · simp [update_issue, hiss, hdo]
  · simp [update_issue, hiss, hdo, emit_event]
  · cases title <;> simp [lookupKey_append, lookupKey_optEntry]
  · cases description <;> simp [lookupKey_append, lookupKey_optEntry]
  · cases status <;> simp [lookupKey_append, lookupKey_optEntry]
  · cases priority <;> simp [lookupKey_append, lookupKey_optEntry]
  · cases assignee <;> simp [lookupKey_append, lookupKey_optEntry]
  · cases notes <;> simp [lookupKey_append, lookupKey_optEntry]
  · cases md <;> simp [lookupKey_append, lookupKey_optEntry]
  · intro k v hmem
    simp only [List.mem_append] at hmem
    rcases hmem with ((((((h | h) | h) | h) | h) | h) | h) <;>
      · have hk := mem_optEntry h
        simp only [] at hk
        subst hk
        simp

/-- Witness for the amended C7: an update supplying every field on the
concrete store. -/
theorem update_changes_map_witness :
    ∃ issue₁ ev,
      (update_issue mgrW stW "a" (some "T2") (some "D") (some "done") (some 3)
          (some "al") (some "nn") (some [("k", "v")]) 9 "e9" 9).1 = Except.ok issue₁ ∧
      (update_issue mgrW stW "a" (some "T2") (some "D") (some "done") (some 3)
          (some "al") (some "nn") (some [("k", "v")]) 9 "e9" 9).2.1.events
        = stW.events ++ [ev] ∧
      ev.event_type = "updated" ∧
      ev.issue_id = "a" ∧
      lookupKey "title" ev.changes
        = (some "T2").map (fun v => ChangeVal.oldNew (JVal.vstr issW_a.title) (JVal.vstr v)) ∧
      lookupKey "description" ev.changes
        = (some "D").map (fun v => ChangeVal.oldNew (JVal.vstr issW_a.description) (JVal.vstr v)) ∧
      lookupKey "status" ev.changes
        = (some "done").map
            (fun v => ChangeVal.oldNew (JVal.vstr issW_a.status) (JVal.vstr (status_aliases v))) ∧
      lookupKey "priority" ev.changes
        = (some (3 : Int)).map (fun v => ChangeVal.oldNew (JVal.vint issW_a.priority) (JVal.vint v)) ∧
      lookupKey "assignee" ev.changes
        = (some "al").map (fun v => ChangeVal.oldNew (optStrJ issW_a.assignee) (JVal.vstr v)) ∧
      lookupKey "blocking_notes" ev.changes
        = (some "nn").map (fun v => ChangeVal.oldNew (optStrJ issW_a.blocking_notes) (JVal.vstr v)) ∧
      lookupKey "metadata" ev.changes
        = (some [("k", "v")]).map (fun v => ChangeVal.metaMap v) ∧
      (∀ k v, (k, v) ∈ ev.changes →
        k ∈ ["title", "description", "status", "priority", "assignee", "blocking_notes", "metadata"]) :=
  update_changes_map_spec mgrW stW "a" issW_a (some "T2") (some "D") (some "done") (some 3)
    (some "al") (some "nn") (some [("k", "v")]) 9 "e9" 9 (by decide)
    (by intro s h; cases h; decide) (by intro q h; cases h; decide)

theorem issues_list_load (st : Store) (h₁ : (st.issues.map Issue.id).Nodup) :
    (load_fresh st).issues.map Prod.snd = st.issues := by
  rw [load_fresh_issues st h₁, List.map_map]
  have : (Prod.snd ∘ fun i : Issue => (i.id, i)) = id := rfl
  rw [this, List.map_id]

theorem get_issue_load_some (st : Store) (h₁ : (st.issues.map Issue.id).Nodup)
    (k : String) (b : Issue) :
    (load_fresh st).get_issue k = some b ↔ b ∈ st.issues ∧ b.id = k := by
  rw [IssueIndex.get_issue, load_fresh_issues st h₁]
  exact lookupKey_pairs Issue.id st.issues k b h₁

theorem get_issue_load_none (st : Store) (h₁ : (st.issues.map Issue.id).Nodup)
    (k : String) :
    (load_fresh st).get_issue k = none ↔ ∀ b ∈ st.issues, b.id ≠ k := by
  rw [IssueIndex.get_issue, load_fresh_issues st h₁]
  exact lookupKey_pairs_none Issue.id st.issues k

theorem issue_eq_of_mem_id (st : Store) (h₁ : (st.issues.map Issue.id).Nodup)
    {b b₀ : Issue} (hb : b ∈ st.issues) (hb₀ : b₀ ∈ st.issues) (h : b.id = b₀.id) :
    b = b₀ := by
  have h₂ := (lookupKey_pairs Issue.id st.issues b₀.id b h₁).mpr ⟨hb, h⟩
  have h₃ := (lookupKey_pairs Issue.id st.issues b₀.id b₀ h₁).mpr ⟨hb₀, rfl⟩
  have := h₂.symm.trans h₃
  injection this

theorem get_blockers_load (st : Store) (h₂ : (st.deps.map depKey).Nodup) (k : String) :
    (load_fresh st).get_blockers k
      = (st.deps.filter (fun d => decide (d.from_id = k))).map Dependency.to_id := by
  rw [IssueIndex.get_blockers, load_fresh_deps st h₂, List.filter_map, List.map_map]
  rfl

theorem resolved_status_iff (s : String) :
    resolved_status s = true ↔ (s = "closed" ∨ s = "completed") := by
  simp [resolved_status]

theorem blocker_filter_none_iff (st : Store) (h₁ : (st.issues.map Issue.id).Nodup)
    (bid : String) :
    blocker_filter (load_fresh st) bid = none ↔ resolved_in st bid := by
  unfold blocker_filter
  cases hgi : (load_fresh st).get_issue bid with
  | none =>
    rw [get_issue_load_none st h₁] at hgi
    constructor
    · intro _ b hb hbid
      exact absurd hbid (hgi b hb)
    · intro _
      rfl
  | some b₀ =>
    rw [get_issue_load_some st h₁] at hgi
    obtain ⟨hb₀, hbid₀⟩ := hgi
    have hmatch : (match some b₀ with
        | some b => if resolved_status b.status = true then none else some b
        | none => none)
        = (if resolved_status b₀.status = true then none else some b₀) := rfl
    rw [hmatch]
    by_cases hr : resolved_status b₀.status = true
    · rw [if_pos hr]
      constructor
      · intro _ b hb hbid
        have heq : b = b₀ := issue_eq_of_mem_id st h₁ hb hb₀ (hbid.trans hbid₀.symm)
        subst heq
        exact (resolved_status_iff b.status).mp hr
      · intro _
        rfl
    · rw [if_neg hr]
      constructor
      · intro h
        exact Option.noConfusion h
      · intro hall
        exact absurd ((resolved_status_iff b₀.status).mpr (hall b₀ hb₀ hbid₀)) hr

theorem blocker_filter_some_iff (st : Store) (h₁ : (st.issues.map Issue.id).Nodup)
    (bid : String) (b : Issue) :
    blocker_filter (load_fresh st) bid = some b
      ↔ b ∈ st.issues ∧ b.id = bid ∧ ¬(b.status = "closed" ∨ b.status = "completed") := by
  unfold blocker_filter
  cases hgi : (load_fresh st).get_issue bid with
  | none =>
    rw [get_issue_load_none st h₁] at hgi
    constructor
    · intro h
      exact Option.noConfusion h
    · rintro ⟨hb, hbid, _⟩
      exact absurd hbid (hgi b hb)
  | some b₀ =>
    rw [get_issue_load_some st h₁] at hgi
    obtain ⟨hb₀, hbid₀⟩ := hgi
    have hmatch : (match some b₀ with
        | some b => if resolved_status b.status = true then none else some b
        | none => none)
        = (if resolved_status b₀.status = true then none else some b₀) := rfl
    rw [hmatch]
    by_cases hr : resolved_status b₀.status = true
    · rw [if_pos hr]
      constructor
      · intro h
        exact Option.noConfusion h
      · rintro ⟨hb, hbid, hstat⟩
        have heq : b = b₀ := issue_eq_of_mem_id st h₁ hb hb₀ (hbid.trans hbid₀.symm)
        subst heq
        exact absurd ((resolved_status_iff b.status).mp hr) hstat
    · rw [if_neg hr]
      constructor
      · intro h
        injection h with h
        subst h
        refine ⟨hb₀, hbid₀, ?_⟩
        intro hc
        exact hr ((resolved_status_iff b₀.status).mpr hc)
      · rintro ⟨hb, hbid, _⟩
        have heq : b = b₀ := issue_eq_of_mem_id st h₁ hb hb₀ (hbid.trans hbid₀.symm)
        rw [heq]

theorem mem_unresolved_blockers (st : Store) (h₁ : (st.issues.map Issue.id).Nodup)
    (h₂ : (st.deps.map depKey).Nodup) (k : String) (b : Issue) :
    b ∈ unresolved_blockers (load_fresh st) k
      ↔ b ∈ st.issues ∧ ¬(b.status = "closed" ∨ b.status = "completed") ∧
        ∃ d ∈ st.deps, d.from_id = k ∧ d.to_id = b.id := by
  unfold unresolved_blockers
  rw [get_blockers_load st h₂, List.mem_filterMap]
  constructor
  · rintro ⟨bid, hbid, hbf⟩
    rw [List.mem_map] at hbid
    obtain ⟨d, hd, rfl⟩ := hbid
    rw [List.mem_filter] at hd
    obtain ⟨hdmem, hdfrom⟩ := hd
    rw [blocker_filter_some_iff st h₁] at hbf
    obtain ⟨hb, hbid, hs⟩ := hbf
    exact ⟨hb, hs, d, hdmem, by simpa using hdfrom, hbid.symm⟩
  · rintro ⟨hb, hs, d, hd, hfrom, hto⟩
    refine ⟨d.to_id, ?_, ?_⟩
    · rw [List.mem_map]
      refine ⟨d, ?_, rfl⟩
      rw [List.mem_filter]
      exact ⟨hd, by simpa using hfrom⟩
    · rw [blocker_filter_some_iff st h₁]
      exact ⟨hb, hto.symm, hs⟩

theorem unresolved_blockers_eq_nil_iff (st : Store) (h₁ : (st.issues.map Issue.id).Nodup)
    (h₂ : (st.deps.map depKey).Nodup) (k : String) :
    unresolved_blockers (load_fresh st) k = []
      ↔ ∀ d ∈ st.deps, d.from_id = k → resolved_in st d.to_id := by
  unfold unresolved_blockers
  rw [get_blockers_load st h₂, List.filterMap_eq_nil]
  constructor
  · intro hall d hd hfrom
    have hmem : d.to_id ∈ (st.deps.filter (fun d => decide (d.from_id = k))).map Dependency.to_id := by
      rw [List.mem_map]
      refine ⟨d, ?_, rfl⟩
      rw [List.mem_filter]
      exact ⟨hd, by simpa using hfrom⟩
    exact (blocker_filter_none_iff st h₁ d.to_id).mp (hall d.to_id hmem)
  · intro hall bid hbid
    rw [List.mem_map] at hbid
    obtain ⟨d, hd, rfl⟩ := hbid
    rw [List.mem_filter] at hd
    exact (blocker_filter_none_iff st h₁ d.to_id).mpr (hall d hd.1 (by simpa using hd.2))

/-- C2: get_ready_issues returns exactly the issues whose status is
"open" and whose every blocker is resolved (status closed or completed),
sorted by priority ascending with ties broken by creation time ascending;
for every limit value the limited result is the n-element prefix of the
unlimited result, so the limit only truncates the ordered result and never
changes which issues qualify. -/
theorem get_ready_issues_spec (m : Manager) (st : Store) (hWF : st.WF) :
    ∃ full, (get_ready_issues m st none).1 = Except.ok full ∧
      (∀ x, x ∈ full ↔ x ∈ st.issues ∧ x.status = "open" ∧
        ∀ d ∈ st.deps, d.from_id = x.id → resolved_in st d.to_id) ∧
      List.Sorted readyLE full ∧
      ∀ n, (get_ready_issues m st (some n)).1 = Except.ok (full.take n) ∧
        full = full.take n ++ full.drop n := by
  obtain ⟨h₁, h₂, _⟩ := hWF
  refine ⟨ready_issues_alg (load_fresh st) none, rfl, ?_, ?_, ?_⟩
  · intro x
    unfold ready_issues_alg
    rw [List.mem_insertionSort, List.mem_filter, issues_list_load st h₁,
      Bool.and_eq_true, beq_iff_eq, List.isEmpty_iff,
      unresolved_blockers_eq_nil_iff st h₁ h₂]
  · unfold ready_issues_alg
    exact List.sorted_insertionSort readyLE _
  · intro n
    exact ⟨rfl, (List.take_append_drop n _).symm⟩

/-- Witness for C2 at the concrete store with one open unblocked issue
(`b`), one open blocked issue (`a`, blocked by open `b` and closed `c`),
and one closed issue (`c`). -/
theorem get_ready_issues_witness :
    ∃ full, (get_ready_issues mgrW stW_rich none).1 = Except.ok full ∧
      (∀ x, x ∈ full ↔ x ∈ stW_rich.issues ∧ x.status = "open" ∧
        ∀ d ∈ stW_rich.deps, d.from_id = x.id → resolved_in stW_rich d.to_id) ∧
      List.Sorted readyLE full ∧
      ∀ n, (get_ready_issues mgrW stW_rich (some n)).1 = Except.ok (full.take n) ∧
        full = full.take n ++ full.drop n :=
  get_ready_issues_spec mgrW stW_rich (by decide)

/-- C3: get_blocked_issues returns exactly the issues with at least one
unresolved blocker, regardless of the issue's own status (no condition on
it appears), and pairs each such issue with the complete list of its
currently unresolved blockers, each given as its full current Issue
object. -/
theorem get_blocked_issues_spec (m : Manager) (st : Store) (hWF : st.WF) :
    ∃ l, (get_blocked_issues m st).1 = Except.ok l ∧
      (∀ i bs, (i, bs) ∈ l →
        i ∈ st.issues ∧ bs ≠ [] ∧
        ∀ b, b ∈ bs ↔ b ∈ st.issues ∧ ¬(b.status = "closed" ∨ b.status = "completed") ∧
          ∃ d ∈ st.deps, d.from_id = i.id ∧ d.to_id = b.id) ∧
      (∀ i ∈ st.issues, (∃ d ∈ st.deps, d.from_id = i.id ∧ ¬ resolved_in st d.to_id) →
        ∃ bs, (i, bs) ∈ l) := by
  obtain ⟨h₁, h₂, _⟩ := hWF
  refine ⟨blocked_issues_alg (load_fresh st), rfl, ?_, ?_⟩
  · intro i bs hmem
    unfold blocked_issues_alg at hmem
    rw [List.mem_filterMap] at hmem
    obtain ⟨a, ha, hfa⟩ := hmem
    rw [issues_list_load st h₁] at ha
    by_cases hempty : (unresolved_blockers (load_fresh st) a.id).isEmpty = true
    · rw [if_pos hempty] at hfa
      exact Option.noConfusion hfa
    · rw [if_neg hempty] at hfa
      injection hfa with hfa
      rw [show i = a from (congrArg Prod.fst hfa).symm,
        show bs = unresolved_blockers (load_fresh st) a.id from (congrArg Prod.snd hfa).symm]
      refine ⟨ha, ?_, ?_⟩
      · intro hnil
        rw [List.isEmpty_iff] at hempty
        exact hempty hnil
      · intro b
        exact mem_unresolved_blockers st h₁ h₂ a.id b
  · intro i hi hex
    refine ⟨unresolved_blockers (load_fresh st) i.id, ?_⟩
    unfold blocked_issues_alg
    rw [List.mem_filterMap]
    refine ⟨i, by rw [issues_list_load st h₁]; exact hi, ?_⟩
    have hne : ¬(unresolved_blockers (load_fresh st) i.id).isEmpty = true := by
      rw [List.isEmpty_iff, unresolved_blockers_eq_nil_iff st h₁ h₂]
      intro hall
      obtain ⟨d, hd, hfrom, hres⟩ := hex
      exact hres (hall d hd hfrom)
    rw [if_neg hne]

/-- Witness for C3 at the concrete store: issue `a` is blocked (its
blocker `b` is open, `c` is closed), issues `b` and `c` are not. -/
theorem get_blocked_issues_witness :
    ∃ l, (get_blocked_issues mgrW stW_rich).1 = Except.ok l ∧
      (∀ i bs, (i, bs) ∈ l →
        i ∈ stW_rich.issues ∧ bs ≠ [] ∧
        ∀ b, b ∈ bs ↔ b ∈ stW_rich.issues ∧ ¬(b.status = "closed" ∨ b.status = "completed") ∧
          ∃ d ∈ stW_rich.deps, d.from_id = i.id ∧ d.to_id = b.id) ∧
      (∀ i ∈ stW_rich.issues,
        (∃ d ∈ stW_rich.deps, d.from_id = i.id ∧ ¬ resolved_in stW_rich d.to_id) →
        ∃ bs, (i, bs) ∈ l) :=
  get_blocked_issues_spec mgrW stW_rich (by decide)

theorem foldl_session_step_filter (es : List IssueEvent) :
    ∀ acc : List (String × List String),
    es.foldl session_step acc
      = (es.filter (fun e => e.session_id.isSome)).foldl session_step acc := by
  induction es with
  | nil => intro acc; rfl
  | cons e rest ih =>
    intro acc
    cases he : e.session_id with
    | none =>
      have hstep : session_step acc e = acc := by
        simp [session_step, truthy, he]
      simp only [List.foldl_cons, List.filter_cons, he, Option.isSome_none,
        Bool.false_eq_true, if_neg, hstep]
      exact ih acc
    | some sv =>
      simp only [List.foldl_cons, List.filter_cons, he, Option.isSome_some, if_pos]
      exact ih (session_step acc e)

theorem collect_lookup (es : List IssueEvent) :
    ∀ acc : List (String × List String), (∀ e ∈ es, e.session_id ≠ some "") →
    ∀ sid, lookupKey sid (es.foldl session_step acc)
      = match lookupKey sid acc with
        | some l => some (l ++ session_types es sid)
        | none => if session_types es sid = [] then none
                  else some (session_types es sid) := by
  induction es with
  | nil =>
    intro acc _ sid
    simp only [List.foldl_nil, session_types, List.filter_nil, List.map_nil]
    cases lookupKey sid acc <;> simp
  | cons e rest ih =>
    intro acc hno sid
    have hno' : ∀ x ∈ rest, x.session_id ≠ some "" :=
      fun x hx => hno x (List.mem_cons_of_mem _ hx)
    rw [List.foldl_cons]
    cases he : e.session_id with
    | none =>
      have hstep : session_step acc e = acc := by
        simp [session_step, truthy, he]
      have htypes : session_types (e :: rest) sid = session_types rest sid := by
        simp [session_types, List.filter_cons, he]
      rw [hstep, htypes, ih acc hno' sid]
    | some sv =>
      have hsv : sv ≠ "" := by
        intro hcon
        exact hno e (by simp) (by rw [he, hcon])
      have htruthy : truthy e.session_id = true := by
        simp [truthy, he, hsv]
      have hgetd : e.session_id.getD "" = sv := by rw [he]; rfl
      by_cases hsid : sv = sid
      · subst hsid
        have htypes : session_types (e :: rest) sv
            = e.event_type :: session_types rest sv := by
          simp [session_types, List.filter_cons, he]
        rw [htypes]
        cases hacc : lookupKey sv acc with
        | some l =>
          have hstep : session_step acc e = upsert sv (l ++ [e.event_type]) acc := by
            simp only [session_step, htruthy, if_pos, hgetd, hacc]
          rw [hstep, ih _ hno' sv, upsert_lookup_self]
          simp
        | none =>
          have hstep : session_step acc e = acc ++ [(sv, [e.event_type])] := by
            simp only [session_step, htruthy, if_pos, hgetd, hacc]
          have hlk : lookupKey sv (acc ++ [(sv, [e.event_type])]) = some [e.event_type] := by
            rw [lookupKey_append, hacc]
            simp [lookupKey]
          rw [hstep, ih _ hno' sv, hlk]
          simp
      · have htypes : session_types (e :: rest) sid = session_types rest sid := by
          simp [session_types, List.filter_cons, he, hsid]
        have hsid' : sid ≠ sv := fun hh => hsid hh.symm
        cases hacc : lookupKey sv acc with
        | some l =>
          have hstep : session_step acc e = upsert sv (l ++ [e.event_type]) acc := by
            simp only [session_step, htruthy, if_pos, hgetd, hacc]
          rw [hstep, ih _ hno' sid, upsert_lookup_other _ _ hsid', htypes]
        | none =>
          have hstep : session_step acc e = acc ++ [(sv, [e.event_type])] := by
            simp only [session_step, htruthy, if_pos, hgetd, hacc]
          have hlk : lookupKey sid (acc ++ [(sv, [e.event_type])]) = lookupKey sid acc := by
            rw [lookupKey_append]
            cases h₄ : lookupKey sid acc with
            | some l => rfl
            | none => simp [lookupKey, fun hh : sv = sid => hsid hh]
          rw [hstep, ih _ hno' sid, hlk, htypes]

theorem session_step_keys_nodup (acc : List (String × List String)) (e : IssueEvent)
    (h : (acc.map Prod.fst).Nodup) :
    ((session_step acc e).map Prod.fst).Nodup := by
  unfold session_step
  by_cases ht : truthy e.session_id = true
  · rw [if_pos ht]
    cases hacc : lookupKey (e.session_id.getD "") acc with
    | some l =>
      have hmem : (e.session_id.getD "") ∈ acc.map Prod.fst := by
        by_contra hnm
        rw [← lookupKey_eq_none_iff] at hnm
        rw [hnm] at hacc
        exact Option.noConfusion hacc
      simp only [hacc]
      rw [upsert_map_fst_of_mem _ _ _ hmem]
      exact h
    | none =>
      have hnm : (e.session_id.getD "") ∉ acc.map Prod.fst :=
        (lookupKey_eq_none_iff _ _).mp hacc
      simp only [hacc]
      rw [List.map_append]
      simp only [List.map_cons, List.map_nil]
      rw [List.nodup_append]
      exact ⟨h, List.nodup_singleton _, by simpa [List.disjoint_singleton] using hnm⟩
  · rw [if_neg ht]
    exact h

theorem collect_keys_nodup (es : List IssueEvent) :
    ∀ acc : List (String × List String), (acc.map Prod.fst).Nodup →
    ((es.foldl session_step acc).map Prod.fst).Nodup := by
  induction es with
  | nil => intro acc h; exact h
  | cons e rest ih =>
    intro acc h
    rw [List.foldl_cons]
    exact ih _ (session_step_keys_nodup acc e h)

theorem session_types_eq_nil_iff (es : List IssueEvent) (sid : String) :
    session_types es sid = [] ↔ ∀ e ∈ es, e.session_id ≠ some sid := by
  simp [session_types, List.map_eq_nil, List.filter_eq_nil]

/-- C8: for every existing issue id, get_issue_sessions returns the
session ids of the issue's historical events as a deduplicated,
ascending-sorted list, a session count equal to the number of distinct
sessions, and an events-by-session map sending each linked session id to
the event types it produced in event-log order; for every unknown id it
raises the not-found failure. -/
theorem get_issue_sessions_spec (m : Manager) (st : Store) (uid : String)
    (hno : ∀ e ∈ st.events, e.session_id ≠ some "") :
    ((load_fresh st).get_issue uid = none →
      (get_issue_sessions m st uid).1 = Except.error ("Issue not found: " ++ uid)) ∧
    (((load_fresh st).get_issue uid).isNone = false →
      ∃ info, (get_issue_sessions m st uid).1 = Except.ok info ∧
        info.issue_id = uid ∧
        List.Sorted (fun a b : String => a ≤ b) info.linked_sessions ∧
        info.linked_sessions.Nodup ∧
        (∀ sid, sid ∈ info.linked_sessions ↔
          ∃ e ∈ get_issue_events st uid, e.session_id = some sid) ∧
        info.session_count = info.linked_sessions.length ∧
        (∀ sid ∈ info.linked_sessions,
          lookupKey sid info.events_by_session
            = some (session_types (get_issue_events st uid) sid))) := by
  constructor
  · intro h
    unfold get_issue_sessions
    rw [h]
  · intro h
    obtain ⟨iss, hiss⟩ : ∃ iss, (load_fresh st).get_issue uid = some iss := by
      cases hgi : (load_fresh st).get_issue uid with
      | none => rw [hgi] at h; simp at h
      | some iss => exact ⟨iss, rfl⟩
    have hno' : ∀ e ∈ get_issue_events st uid, e.session_id ≠ some "" := by
      intro e he
      exact hno e (List.mem_filter.mp he).1
    have klook : ∀ sid, lookupKey sid (collect_sessions (get_issue_events st uid))
        = if session_types (get_issue_events st uid) sid = [] then none
          else some (session_types (get_issue_events st uid) sid) := by
      intro sid
      have := collect_lookup (get_issue_events st uid) [] hno' sid
      simpa [collect_sessions, lookupKey] using this
    have knodup : ((collect_sessions (get_issue_events st uid)).map Prod.fst).Nodup :=
      collect_keys_nodup (get_issue_events st uid) [] (by simp)
    unfold get_issue_sessions
    rw [hiss]
    refine ⟨_, rfl, rfl, ?_, ?_, ?_, ?_, ?_⟩
    · exact List.sorted_insertionSort _ _
    · exact ((List.perm_insertionSort _ _).nodup_iff).mpr knodup
    · intro sid
      rw [List.mem_insertionSort]
      have h₄ : sid ∈ (collect_sessions (get_issue_events st uid)).map Prod.fst
          ↔ ¬ lookupKey sid (collect_sessions (get_issue_events st uid)) = none := by
        rw [lookupKey_eq_none_iff]
        tauto
      rw [h₄, klook sid]
      by_cases hty : session_types (get_issue_events st uid) sid = []
      · rw [if_pos hty]
        refine iff_of_false (by simp) ?_
        rw [session_types_eq_nil_iff] at hty
        rintro ⟨e, he, hesid⟩
        exact hty e he hesid
      · rw [if_neg hty]
        refine iff_of_true (by simp) ?_
        by_contra hcon
        push_neg at hcon
        exact hty ((session_types_eq_nil_iff _ sid).mpr hcon)
    · show (collect_sessions (get_issue_events st uid)).length = _
      rw [(List.perm_insertionSort _ _).length_eq, List.length_map]
    · intro sid hmem
      rw [List.mem_insertionSort] at hmem
      have hne : ¬ lookupKey sid (collect_sessions (get_issue_events st uid)) = none := by
        rw [lookupKey_eq_none_iff]
        tauto
      rw [klook sid]
      by_cases hty : session_types (get_issue_events st uid) sid = []
      · rw [klook sid, if_pos hty] at hne
        exact absurd rfl hne
      · rw [if_neg hty]

/-- Witness for C8 at the concrete store whose issue `a` was touched by
sessions s1 and s2 plus one session-less event. -/
theorem get_issue_sessions_witness :
    (((load_fresh stW_rich).get_issue "a" = none →
      (get_issue_sessions mgrW stW_rich "a").1 = Except.error ("Issue not found: " ++ "a"))) ∧
    (((load_fresh stW_rich).get_issue "a").isNone = false →
      ∃ info, (get_issue_sessions mgrW stW_rich "a").1 = Except.ok info ∧
        info.issue_id = "a" ∧
        List.Sorted (fun a b : String => a ≤ b) info.linked_sessions ∧
        info.linked_sessions.Nodup ∧
        (∀ sid, sid ∈ info.linked_sessions ↔
          ∃ e ∈ get_issue_events stW_rich "a", e.session_id = some sid) ∧
        info.session_count = info.linked_sessions.length ∧
        (∀ sid ∈ info.linked_sessions,
          lookupKey sid info.events_by_session
            = some (session_types (get_issue_events stW_rich "a") sid))) :=
  get_issue_sessions_spec mgrW stW_rich "a" (by decide)

/-- C10: events whose session_id is absent are entirely excluded from the
get_issue_sessions aggregation — the aggregation over the issue's events
equals the aggregation over only those events carrying a session_id — and
an issue all of whose events lack a session_id reports a session count of
0, an empty linked-sessions list, and an empty events-by-session map. -/
theorem sessionless_events_excluded (m : Manager) (st : Store) (uid : String)
    (hiss : ((load_fresh st).get_issue uid).isNone = false) :
    collect_sessions (get_issue_events st uid)
      = collect_sessions ((get_issue_events st uid).filter (fun e => e.session_id.isSome)) ∧
    ((∀ e ∈ st.events, e.issue_id = uid → e.session_id = none) →
      ∃ info, (get_issue_sessions m st uid).1 = Except.ok info ∧
        info.session_count = 0 ∧ info.linked_sessions = [] ∧
        info.events_by_session = []) := by
  obtain ⟨iss, hiss'⟩ : ∃ iss, (load_fresh st).get_issue uid = some iss := by
    cases hgi : (load_fresh st).get_issue uid with
    | none => rw [hgi] at hiss; simp at hiss
    | some iss => exact ⟨iss, rfl⟩
  constructor
  · exact foldl_session_step_filter _ []
  · intro hall
    have hfil : (get_issue_events st uid).filter (fun e => e.session_id.isSome) = [] := by
      rw [List.filter_eq_nil]
      intro e he
      have hm := List.mem_filter.mp he
      have hnone := hall e hm.1 (by simpa using hm.2)
      simp [hnone]
    have hcoll : collect_sessions (get_issue_events st uid) = [] := by
      unfold collect_sessions
      rw [foldl_session_step_filter, hfil]
      rfl
    unfold get_issue_sessions
    rw [hiss']
    refine ⟨_, rfl, ?_, ?_, ?_⟩
    · show (collect_sessions (get_issue_events st uid)).length = 0
      rw [hcoll]
      rfl
    · show List.insertionSort _ ((collect_sessions (get_issue_events st uid)).map Prod.fst) = []
      rw [hcoll]
      rfl
    · show collect_sessions (get_issue_events st uid) = []
      exact hcoll

/-- Witness for C10 at the store produced by a session-less manager
creating one issue: the sole event carries no session id. -/
theorem sessionless_events_excluded_witness :
    collect_sessions (get_issue_events stW_nosession "a")
      = collect_sessions
          ((get_issue_events stW_nosession "a").filter (fun e => e.session_id.isSome)) ∧
    ((∀ e ∈ stW_nosession.events, e.issue_id = "a" → e.session_id = none) →
      ∃ info, (get_issue_sessions mgrNone stW_nosession "a").1 = Except.ok info ∧
        info.session_count = 0 ∧ info.linked_sessions = [] ∧
        info.events_by_session = []) :=
  sessionless_events_excluded mgrNone stW_nosession "a" (by decide)
